import Mathlib

/-!
Verification of the Signia intranet local data store
(`src/services/db.ts`, `src/services/mockData.ts`, `src/App.tsx`).

The store keeps eight keyed collections in an embedded database.  Documents
are modelled generically as a primary key plus an opaque payload; the store
state is the tuple of the eight collection contents.  Fallible operations
return `Except DBError`; a multi-collection transaction is all-or-nothing,
so an `error` result means the stored state is unchanged.

The persistence engine itself (the Dexie library) is not part of this
repository; its per-collection primitives and the live-query delivery
loop are modelled from the specification and marked as such below.
Everything else is translated directly from the TypeScript sources.
-/

namespace Signia

/-- A document: a primary key plus an opaque payload standing for the
remaining fields of the record. -/
structure Doc where
  key : String
  payload : String
  deriving DecidableEq, Repr

/-- Store-layer error kinds. -/
inductive DBError where
  | invalidBackupFormat
  | duplicateKey
  | notFound
  deriving DecidableEq, Repr

/-- The contents of the eight collections declared in `SigniaDatabase`. -/
structure DBState where
  employees : List Doc
  banners : List Doc
  posts : List Doc
  resources : List Doc
  wiki : List Doc
  apps : List Doc
  marketingAssets : List Doc
  patchNotes : List Doc
  deriving DecidableEq, Repr

/-- The parsed backup object (`JSON.parse` of the backup string).  A field
that is absent or `null` in the JSON is `none`; `schemaVersion` is kept to
show restore never reads it. -/
structure Snapshot where
  employees : Option (List Doc)
  banners : Option (List Doc)
  posts : Option (List Doc)
  resources : Option (List Doc)
  wiki : Option (List Doc)
  apps : Option (List Doc)
  marketingAssets : Option (List Doc)
  patchNotes : Option (List Doc)
  timestamp : Option String
  schemaVersion : Option Int
  deriving DecidableEq, Repr

/-- JavaScript truthiness of an optional string field: absent, `null` and
the empty string are falsy; every other string is truthy. -/
def truthyStr : Option String → Bool
  | none => false
  | some s => s ≠ ""

/-- JavaScript truthiness of an optional array field: absent and `null`
are falsy; every array, including the empty array, is truthy. -/
def truthyArr : Option (List Doc) → Bool
  | none => false
  | some _ => true

/-- Modelled from the spec: the per-collection `add` primitive of the
Collection Store (provided by the Dexie library, whose code is not in this
repository) fails with DuplicateKeyError when a document with the same
primary key already exists, and otherwise appends the document. -/
def addDoc (t : List Doc) (d : Doc) : Except DBError (List Doc) :=
  if t.any (fun x => x.key = d.key) then .error .duplicateKey
  else .ok (t ++ [d])

/-- Modelled from the spec: `bulkAdd(docs)` adds the documents in order and
is atomic; a duplicate primary key fails the whole bulk operation. -/
def bulkAdd (t : List Doc) : List Doc → Except DBError (List Doc)
  | [] => .ok t
  | d :: ds =>
    match addDoc t d with
    | .error e => .error e
    | .ok t2 => bulkAdd t2 ds

/-- Modelled from the spec: `update(key, partialFields)` fails with
NotFoundError when no document has the key, and otherwise rewrites the
payload of the matching document in place. -/
def updateDoc (t : List Doc) (k : String) (p : String) : Except DBError (List Doc) :=
  if t.any (fun x => x.key = k) then
    .ok (t.map (fun x => if x.key = k then ⟨x.key, p⟩ else x))
  else .error .notFound

/-! ### Bootstrap dataset (`src/services/mockData.ts`)

Each entry is reduced to its primary key and a payload naming the record.
The patch-note key is the natural key `version`; all other collections are
keyed by `id`. -/

def INITIAL_EMPLOYEES : List Doc :=
  [⟨"1", "Alice Johnson"⟩, ⟨"2", "Bob Smith"⟩, ⟨"3", "Carol Williams"⟩,
   ⟨"4", "David Brown"⟩, ⟨"5", "Eva Davis"⟩, ⟨"6", "Frank Miller"⟩]

def INITIAL_BANNERS : List Doc :=
  [⟨"b1", "Welcome to Signia Studios Intranet"⟩,
   ⟨"b2", "Q3 Townhall Meeting - Join us this Friday"⟩]

def INITIAL_POSTS : List Doc :=
  [⟨"p1", "Launching the New Brand Identity"⟩,
   ⟨"p2", "Holiday Party Details"⟩,
   ⟨"p3", "Tech Talk: The Future of AI"⟩]

def INITIAL_RESOURCES : List Doc :=
  [⟨"r1", "Onboarding Checklist 2024"⟩, ⟨"r2", "React Best Practices"⟩,
   ⟨"r3", "Design System Guidelines"⟩]

def INITIAL_WIKI : List Doc :=
  [⟨"w1", "Our Core Values"⟩, ⟨"w2", "Health Insurance Overview"⟩,
   ⟨"w3", "Expense Reimbursement"⟩, ⟨"w4", "Remote Work Policy"⟩]

def INITIAL_APPS : List Doc :=
  [⟨"a1", "Jira"⟩, ⟨"a2", "Slack"⟩, ⟨"a3", "Google AI Studio"⟩,
   ⟨"a4", "HR Portal"⟩, ⟨"a5", "Figma"⟩, ⟨"a6", "GitHub"⟩]

def INITIAL_MARKETING : List Doc :=
  [⟨"m1", "Official Logo Pack"⟩, ⟨"m2", "Brand Intro Video"⟩]

/-- The nine bootstrap patch notes, keyed by version; the payload is the
date field, where "today" stands for the dynamic
`new Date().toISOString().split(...)[0]` of the two newest entries. -/
def INITIAL_PATCH_NOTES : List Doc :=
  [⟨"1.2.1", "today"⟩, ⟨"1.2.0", "today"⟩, ⟨"1.1.5", "2023-11-01"⟩,
   ⟨"1.1.4", "2023-10-31"⟩, ⟨"1.1.3", "2023-10-31"⟩,
   ⟨"1.1.2", "2023-10-30"⟩, ⟨"1.1.1", "2023-10-29"⟩,
   ⟨"1.1.0", "2023-10-29"⟩, ⟨"1.0.0", "2023-10-28"⟩]

/-- The duplicate-version filter applied to the patch notes before seeding
(`db.ts` lines 77-80): keep the note at index `i` exactly when `i` is the
first index whose note has the same `version`. -/
def uniqueNotes (notes : List Doc) : List Doc :=
  (notes.enum.filter
      (fun q => q.1 = notes.findIdx (fun t => t.key = q.2.key))).map Prod.snd

/-- The seeding transaction of `initDB` (`db.ts` lines 67-81): bulk-add the
bootstrap dataset of every collection, patch notes deduplicated, inside one
atomic transaction. -/
def seedTx (st : DBState) : Except DBError DBState := do
  let e ← bulkAdd st.employees INITIAL_EMPLOYEES
  let b ← bulkAdd st.banners INITIAL_BANNERS
  let p ← bulkAdd st.posts INITIAL_POSTS
  let r ← bulkAdd st.resources INITIAL_RESOURCES
  let w ← bulkAdd st.wiki INITIAL_WIKI
  let a ← bulkAdd st.apps INITIAL_APPS
  let m ← bulkAdd st.marketingAssets INITIAL_MARKETING
  let n ← bulkAdd st.patchNotes (uniqueNotes INITIAL_PATCH_NOTES)
  return ⟨e, b, p, r, w, a, m, n⟩

/-- Whether the `initDB` promise resolved or rejected. -/
inductive InitOutcome where
  | resolved
  | rejected
  deriving DecidableEq, Repr

/-- `initDB` (`db.ts` lines 59-87).  `openFails` marks a failure of
`db.open()` before the empty-check.  The body counts the employees and
seeds only when the count is zero; the surrounding try/catch logs any
failure to the console and lets the promise resolve, so the outcome is
`resolved` on every path and a failed transaction leaves the state as it
was. -/
def initDBRun (openFails : Bool) (st : DBState) : InitOutcome × DBState :=
  if openFails then (.resolved, st)
  else if st.employees.length = 0 then
    match seedTx st with
    | .ok st2 => (.resolved, st2)
    | .error _ => (.resolved, st)
  else (.resolved, st)

/-- `backupDatabase` (`db.ts` lines 90-109): snapshot of every collection,
the current ISO timestamp, and the literal `schemaVersion: 3`.  The
`persistedVersion` argument stands for the schema version the open store
actually carries; the function body never uses it, mirroring that the
source reads no version when exporting. -/
def backupDatabase (_persistedVersion : Nat) (st : DBState) (now : String) : Snapshot :=
  { employees := some st.employees
    banners := some st.banners
    posts := some st.posts
    resources := some st.resources
    wiki := some st.wiki
    apps := some st.apps
    marketingAssets := some st.marketingAssets
    patchNotes := some st.patchNotes
    timestamp := some now
    schemaVersion := some 3 }

/-- One collection inside the restore transaction (`db.ts` lines 120-142):
`clear()` followed by `bulkAdd` guarded by `data.X?.length`, so an absent
field or an empty array leaves the collection cleared. -/
def restoreTable (arr : Option (List Doc)) : Except DBError (List Doc) :=
  match arr with
  | none => .ok []
  | some l => if l.length ≠ 0 then bulkAdd [] l else .ok []

/-- `restoreDatabase` (`db.ts` lines 111-149).  The validation is the
JavaScript test `!data.timestamp || !data.employees`; on success the
transaction replaces every collection, and an error anywhere aborts the
whole transaction, leaving the prior state in force. -/
def restoreDatabase (s : Snapshot) : Except DBError DBState :=
  if ¬ truthyStr s.timestamp ∨ ¬ truthyArr s.employees then
    .error .invalidBackupFormat
  else do
    let e ← restoreTable s.employees
    let b ← restoreTable s.banners
    let p ← restoreTable s.posts
    let r ← restoreTable s.resources
    let w ← restoreTable s.wiki
    let a ← restoreTable s.apps
    let m ← restoreTable s.marketingAssets
    let n ← restoreTable s.patchNotes
    return ⟨e, b, p, r, w, a, m, n⟩

/-- The stored state visible after a call to `restoreDatabase`: the new
state on success, the untouched prior state when the transaction aborted
or validation failed. -/
def runRestore (s : Snapshot) (st : DBState) : DBState :=
  match restoreDatabase s with
  | .ok st2 => st2
  | .error _ => st

/-- All eight collections have pairwise distinct primary keys: the store
invariant every committed state satisfies. -/
def keysNodup (st : DBState) : Prop :=
  (st.employees.map Doc.key).Nodup ∧ (st.banners.map Doc.key).Nodup ∧
  (st.posts.map Doc.key).Nodup ∧ (st.resources.map Doc.key).Nodup ∧
  (st.wiki.map Doc.key).Nodup ∧ (st.apps.map Doc.key).Nodup ∧
  (st.marketingAssets.map Doc.key).Nodup ∧ (st.patchNotes.map Doc.key).Nodup

instance (st : DBState) : Decidable (keysNodup st) := by
  unfold keysNodup; infer_instance

/-! ### Schema Registry / Migration Engine

The migration list is declared in the `SigniaDatabase` constructor
(`db.ts` lines 22-53): three steps targeting versions 1, 2 and 3. -/

def migrationList : List Nat := [1, 2, 3]

/-- Modelled from the spec: the Migration Engine itself is provided by the
Dexie library and is not in this repository.  On open it reads the
persisted version `v0`, applies every step whose target version exceeds
`v0` in ascending order, and persists each target version immediately
after the step succeeds.  The result is the final persisted version
together with the target versions of the steps that ran. -/
def openMigrate (steps : List Nat) (v0 : Nat) : Nat × List Nat :=
  let pending := steps.filter (fun v => v0 < v)
  (pending.foldl (fun acc v => max acc v) v0, pending)

/-! ### Live Query Subsystem

`App.tsx` (lines 71-84) subscribes to each collection with a read function
over the store; the delivery loop below is the publish/subscribe layer of
the specification, since the engine (dexie-react-hooks) is not in this
repository. -/

/-- The eight collection names. -/
inductive CollName where
  | employees
  | banners
  | posts
  | resources
  | wiki
  | apps
  | marketingAssets
  | patchNotes
  deriving DecidableEq, Repr

/-- Modelled from the spec: a write entering the single-writer commit
path, tagged with the collections it touches. -/
structure WriteOp where
  touches : List CollName
  act : DBState → DBState

/-- Modelled from the spec: a subscription pairs a read function with its
dependency set (`none` means re-run on every commit) and a cached
result. -/
structure LiveSub (α : Type) where
  readFn : DBState → α
  deps : Option (List CollName)
  cache : α

/-- Modelled from the spec: one committed write.  If the touched set meets
the dependency set the read function is re-run; when the new result
differs by value from the cache, the callback fires (recorded as the pair
of the write index and the delivered result) and the cache is updated. -/
def stepWrite {α : Type} [DecidableEq α] (sub : LiveSub α) (st : DBState)
    (w : WriteOp) (i : Nat) : DBState × LiveSub α × Option (Nat × α) :=
  let st2 := w.act st
  let relevant :=
    match sub.deps with
    | none => true
    | some ds => ds.any (fun c => w.touches.contains c)
  if relevant then
    let r := sub.readFn st2
    if r = sub.cache then (st2, sub, none)
    else (st2, { sub with cache := r }, some (i, r))
  else (st2, sub, none)

/-- Modelled from the spec: commit a list of writes in FIFO order,
collecting the fired callbacks in delivery order; `i` is the index of the
first write. -/
def runWrites {α : Type} [DecidableEq α] (sub : LiveSub α) (st : DBState)
    (i : Nat) : List WriteOp → DBState × LiveSub α × List (Nat × α)
  | [] => (st, sub, [])
  | w :: ws =>
    let r1 := stepWrite sub st w i
    let r2 := runWrites r1.2.1 r1.1 (i + 1) ws
    (r2.1, r2.2.1, r1.2.2.toList ++ r2.2.2)

/-- The employees subscription of `useAppController`
(`App.tsx` line 71): read function `db.employees.toArray()`, dependency
set the employees collection, cache initialised from the current state. -/
def empSub (st : DBState) : LiveSub (List Doc) :=
  ⟨DBState.employees, some [CollName.employees], st.employees⟩

/-- An `add` of one document to the employees collection as a committed
write (spec Collection Store `add` on the employees table). -/
def addWrite (d : Doc) : WriteOp :=
  ⟨[CollName.employees], fun st => { st with employees := st.employees ++ [d] }⟩

/-- The store with every collection empty (a fresh database). -/
def emptyDB : DBState := ⟨[], [], [], [], [], [], [], []⟩

/-- The store contents produced by a successful seeding of the fresh
database. -/
def seededDB : DBState :=
  ⟨INITIAL_EMPLOYEES, INITIAL_BANNERS, INITIAL_POSTS, INITIAL_RESOURCES,
   INITIAL_WIKI, INITIAL_APPS, INITIAL_MARKETING,
   uniqueNotes INITIAL_PATCH_NOTES⟩

/-! ### Helper lemmas -/

theorem except_bind_ok {α β : Type} {x : Except DBError α}
    {f : α → Except DBError β} {b : β} (h : x >>= f = Except.ok b) :
    ∃ a, x = Except.ok a ∧ f a = Except.ok b := by
  cases x with
  | error e => simp [Bind.bind, Except.bind] at h
  | ok a => exact ⟨a, rfl, by simpa [Bind.bind, Except.bind] using h⟩

theorem bulkAdd_ok_eq (l : List Doc) : ∀ (t r : List Doc),
    bulkAdd t l = Except.ok r → r = t ++ l := by
  induction l with
  | nil =>
    intro t r h
    simp only [bulkAdd] at h
    cases h
    simp
  | cons d ds ih =>
    intro t r h
    simp only [bulkAdd, addDoc] at h
    cases hc : t.any (fun x => x.key = d.key) with
    | true => rw [hc] at h; simp at h
    | false =>
      rw [hc] at h
      simp only [Bool.false_eq_true, if_false] at h
      have := ih (t ++ [d]) r h
      simpa [List.append_assoc] using this

theorem bulkAdd_nodup_ok (l : List Doc) : ∀ (t : List Doc),
    ((t ++ l).map Doc.key).Nodup → bulkAdd t l = Except.ok (t ++ l) := by
  induction l with
  | nil => intro t h; simp [bulkAdd]
  | cons d ds ih =>
    intro t h
    have hsplit := (List.nodup_append).mp (by simpa using h)
    have hd : t.any (fun x => x.key = d.key) = false := by
      rw [List.any_eq_false]
      intro x hx hk
      have hmem : d.key ∈ t.map Doc.key := by
        rw [List.mem_map]
        exact ⟨x, hx, by simpa using hk⟩
      exact hsplit.2.2 hmem (List.mem_cons_self d.key _)
    simp only [bulkAdd, addDoc, hd, Bool.false_eq_true, if_false]
    have harg : (((t ++ [d]) ++ ds).map Doc.key).Nodup := by
      simpa [List.append_assoc] using h
    have := ih (t ++ [d]) harg
    rw [this]
    simp [List.append_assoc]

theorem restoreTable_ok {o : Option (List Doc)} {r : List Doc}
    (h : restoreTable o = Except.ok r) : r = o.getD [] := by
  cases o with
  | none =>
    simp only [restoreTable] at h
    cases h
    rfl
  | some l =>
    cases l with
    | nil =>
      simp only [restoreTable] at h
      cases h
      rfl
    | cons d ds =>
      simp only [restoreTable, List.length_cons] at h
      have := bulkAdd_ok_eq (d :: ds) [] r (by simpa using h)
      simpa using this

theorem restoreTable_some_nodup {l : List Doc} (h : (l.map Doc.key).Nodup) :
    restoreTable (some l) = Except.ok l := by
  cases l with
  | nil => rfl
  | cons d ds =>
    simp only [restoreTable, List.length_cons]
    have := bulkAdd_nodup_ok (d :: ds) [] (by simpa using h)
    simpa using this

instance {ε α : Type} [DecidableEq ε] [DecidableEq α] :
    DecidableEq (Except ε α) := fun x y =>
  match x, y with
  | .error a, .error b =>
    if h : a = b then .isTrue (by rw [h]) else .isFalse (by simp [h])
  | .ok a, .ok b =>
    if h : a = b then .isTrue (by rw [h]) else .isFalse (by simp [h])
  | .error _, .ok _ => .isFalse (by simp)
  | .ok _, .error _ => .isFalse (by simp)

/-! ### Concrete inputs used by counterexamples and witnesses -/

/-- A snapshot carrying a valid timestamp and a present-but-empty
employees array. -/
def emptyEmpSnap : Snapshot :=
  ⟨some [], none, none, none, none, none, none, none,
   some "2024-06-01T12:00:00.000Z", some 3⟩

/-- A snapshot with an employees array but no timestamp field. -/
def noTimestampSnap : Snapshot :=
  ⟨some [⟨"1", "Alice Johnson"⟩], none, none, none, none, none, none, none,
   none, some 3⟩

/-- A store holding one employee and one banner. -/
def preState : DBState :=
  ⟨[⟨"1", "Alice Johnson"⟩], [⟨"b1", "Welcome"⟩], [], [], [], [], [], []⟩

/-- Ten documents with distinct keys built from a prefix. -/
def tenDocs (pre : String) : List Doc :=
  (List.range 10).map (fun i => ⟨pre ++ toString i, ""⟩)

/-- A store holding ten employees, ten banners and ten posts. -/
def st101010 : DBState :=
  ⟨tenDocs "e", tenDocs "b", tenDocs "p", [], [], [], [], []⟩

def fiveEmployees : List Doc :=
  [⟨"e1", ""⟩, ⟨"e2", ""⟩, ⟨"e3", ""⟩, ⟨"e4", ""⟩, ⟨"e5", ""⟩]

def twoBanners : List Doc := [⟨"b1", ""⟩, ⟨"b2", ""⟩]

/-- A snapshot carrying five employees, two banners and an empty posts
array. -/
def snap520 : Snapshot :=
  ⟨some fiveEmployees, some twoBanners, some [], none, none, none, none,
   none, some "2024-06-01T12:00:00.000Z", some 3⟩

/-- The store the snapshot `snap520` restores to. -/
def db520 : DBState :=
  ⟨fiveEmployees, twoBanners, [], [], [], [], [], []⟩

/-! ### Claims -/

/-- C1 counterexample: the claim says a snapshot lacking a non-empty
employees array makes `restoreDatabase` fail with the invalid-backup
error and leave every collection untouched.  On the snapshot whose
employees array is present but empty the call instead succeeds and clears
every collection: the JavaScript validation `!data.employees` treats the
empty array as truthy, so it passes. -/
theorem restore_empty_primary_counterexample :
    restoreDatabase emptyEmpSnap = Except.ok emptyDB ∧
    runRestore emptyEmpSnap preState ≠ preState := by
  constructor
  · decide
  · decide

theorem restore_error_of_falsy {s : Snapshot}
    (h : truthyStr s.timestamp = false ∨ truthyArr s.employees = false) :
    restoreDatabase s = Except.error DBError.invalidBackupFormat := by
  have hcond : ¬ truthyStr s.timestamp ∨ ¬ truthyArr s.employees := by
    rcases h with h | h
    · exact Or.inl (by simp [h])
    · exact Or.inr (by simp [h])
  simp only [restoreDatabase]
  rw [if_pos hcond]

/-- C1 (amended): `restoreDatabase` fails with the invalid-backup-format
error, leaving every stored collection exactly as it was, whenever the
snapshot has a falsy timestamp (absent, null, or the empty string) or an
absent (or null) employees field; a present-but-empty employees array
passes the validation. -/
theorem restore_validation_amended (s : Snapshot) (st : DBState)
    (h : truthyStr s.timestamp = false ∨ truthyArr s.employees = false) :
    restoreDatabase s = Except.error DBError.invalidBackupFormat ∧
    runRestore s st = st := by
  have hmain := restore_error_of_falsy h
  exact ⟨hmain, by simp [runRestore, hmain]⟩

/-- C1 (amended) witness: the snapshot with no timestamp field is
rejected and the store keeps its prior contents. -/
theorem restore_validation_amended_witness :
    restoreDatabase noTimestampSnap = Except.error DBError.invalidBackupFormat ∧
    runRestore noTimestampSnap preState = preState :=
  restore_validation_amended noTimestampSnap preState (Or.inl (by decide))

/-- C2: when `restoreDatabase` succeeds, the resulting store holds for
each of the eight collections exactly the documents of the corresponding
snapshot array, a missing or empty array yielding an empty collection;
the prior contents never survive into the result. -/
theorem restore_replaces_collections (s : Snapshot) (st st2 : DBState)
    (h : restoreDatabase s = Except.ok st2) :
    runRestore s st = st2 ∧
    st2 = ⟨s.employees.getD [], s.banners.getD [], s.posts.getD [],
           s.resources.getD [], s.wiki.getD [], s.apps.getD [],
           s.marketingAssets.getD [], s.patchNotes.getD []⟩ := by
  refine ⟨by simp [runRestore, h], ?_⟩
  simp only [restoreDatabase] at h
  split at h
  · exact absurd h (by simp)
  · obtain ⟨e, he, h⟩ := except_bind_ok h
    obtain ⟨b, hb, h⟩ := except_bind_ok h
    obtain ⟨p, hp, h⟩ := except_bind_ok h
    obtain ⟨r, hr, h⟩ := except_bind_ok h
    obtain ⟨w, hw, h⟩ := except_bind_ok h
    obtain ⟨a, ha, h⟩ := except_bind_ok h
    obtain ⟨m, hm, h⟩ := except_bind_ok h
    obtain ⟨n, hn, h⟩ := except_bind_ok h
    simp only [pure, Except.pure, Except.ok.injEq] at h
    rw [← h, restoreTable_ok he, restoreTable_ok hb, restoreTable_ok hp,
        restoreTable_ok hr, restoreTable_ok hw, restoreTable_ok ha,
        restoreTable_ok hm, restoreTable_ok hn]

/-- C2 witness: restoring a snapshot with five employees, two banners and
an empty posts array into a store holding ten of each yields exactly the
5/2/0 contents. -/
theorem restore_replaces_collections_witness :
    runRestore snap520 st101010 = db520 ∧
    db520 = ⟨snap520.employees.getD [], snap520.banners.getD [],
             snap520.posts.getD [], snap520.resources.getD [],
             snap520.wiki.getD [], snap520.apps.getD [],
             snap520.marketingAssets.getD [], snap520.patchNotes.getD []⟩ :=
  restore_replaces_collections snap520 st101010 db520 (by decide)

/-- C3: `backupDatabase` immediately followed by `restoreDatabase` of the
produced snapshot succeeds and reproduces the pre-backup contents of every
collection exactly, for any store satisfying the unique-key invariant and
any nonempty timestamp string. -/
theorem backup_restore_roundtrip (v : Nat) (st : DBState) (now : String)
    (hkeys : keysNodup st) (hnow : now ≠ "") :
    restoreDatabase (backupDatabase v st now) = Except.ok st ∧
    runRestore (backupDatabase v st now) st = st := by
  obtain ⟨h1, h2, h3, h4, h5, h6, h7, h8⟩ := hkeys
  have hmain : restoreDatabase (backupDatabase v st now) = Except.ok st := by
    simp only [restoreDatabase, backupDatabase]
    rw [if_neg]
    · simp only [restoreTable_some_nodup h1, restoreTable_some_nodup h2,
        restoreTable_some_nodup h3, restoreTable_some_nodup h4,
        restoreTable_some_nodup h5, restoreTable_some_nodup h6,
        restoreTable_some_nodup h7, restoreTable_some_nodup h8,
        Bind.bind, Except.bind, pure, Except.pure]
    · push_neg
      exact ⟨by simp [truthyStr, hnow], by simp [truthyArr]⟩
  exact ⟨hmain, by simp [runRestore, hmain]⟩

/-- C3 witness: on the seeded store, backup followed by restore of the
exact snapshot reproduces the store. -/
theorem backup_restore_roundtrip_witness :
    restoreDatabase (backupDatabase 3 seededDB "2024-06-01T12:00:00.000Z") =
      Except.ok seededDB ∧
    runRestore (backupDatabase 3 seededDB "2024-06-01T12:00:00.000Z") seededDB =
      seededDB :=
  backup_restore_roundtrip 3 seededDB "2024-06-01T12:00:00.000Z"
    (by decide) (by decide)

/-- C6: `update(key, partialFields)` on a key absent from the collection
fails with NotFoundError rather than succeeding as a no-op (the error
result carries no new collection state, so the collection is unchanged),
and `add(doc)` with an already-present key fails with DuplicateKeyError. -/
theorem update_absent_add_duplicate (t : List Doc) (k p : String) (d : Doc)
    (habs : t.any (fun x => x.key = k) = false)
    (hdup : t.any (fun x => x.key = d.key) = true) :
    updateDoc t k p = Except.error DBError.notFound ∧
    addDoc t d = Except.error DBError.duplicateKey := by
  constructor
  · simp [updateDoc, habs]
  · simp [addDoc, hdup]

/-- C6 witness: updating the absent key 2 fails with NotFoundError and
adding a second document with key 1 fails with DuplicateKeyError. -/
theorem update_absent_add_duplicate_witness :
    updateDoc [⟨"1", "x"⟩] "2" "y" = Except.error DBError.notFound ∧
    addDoc [⟨"1", "x"⟩] ⟨"1", "y"⟩ = Except.error DBError.duplicateKey :=
  update_absent_add_duplicate [⟨"1", "x"⟩] "2" "y" ⟨"1", "y"⟩
    (by decide) (by decide)

/-- C7 counterexample: a failure of `db.open()` inside `initDB` is not
surfaced: the surrounding try/catch logs it and the returned promise
resolves, so the caller observes success. -/
theorem init_swallows_failure_counterexample :
    (initDBRun true preState).1 = InitOutcome.resolved ∧
    (initDBRun true preState).1 ≠ InitOutcome.rejected := by
  constructor
  · rfl
  · decide

/-- C7 (amended): store-layer failures on the write path are surfaced to
the caller — restore rethrows its validation error and the per-collection
add and update reject — with the exception of `initDB`, whose try/catch
swallows every failure of the open or of the seeding transaction: the
call resolves successfully and, the transaction being atomic, the store
is unchanged. -/
theorem error_propagation_amended :
    (∀ (b : Bool) (st : DBState), (initDBRun b st).1 = InitOutcome.resolved) ∧
    (∀ st : DBState, (initDBRun true st).2 = st) ∧
    (∀ s : Snapshot,
        truthyStr s.timestamp = false ∨ truthyArr s.employees = false →
        restoreDatabase s = Except.error DBError.invalidBackupFormat) ∧
    (∀ (t : List Doc) (d : Doc), t.any (fun x => x.key = d.key) = true →
        addDoc t d = Except.error DBError.duplicateKey) ∧
    (∀ (t : List Doc) (k p : String), t.any (fun x => x.key = k) = false →
        updateDoc t k p = Except.error DBError.notFound) := by
  refine ⟨?_, fun _ => rfl, fun _ h => restore_error_of_falsy h,
    fun t d h => by simp [addDoc, h], fun t k p h => by simp [updateDoc, h]⟩
  intro b st
  cases b with
  | true => rfl
  | false =>
    by_cases h : st.employees.length = 0
    · cases hs : seedTx st with
      | ok st2 => simp [initDBRun, h, hs]
      | error e => simp [initDBRun, h, hs]
    · simp [initDBRun, h]

/-- C7 (amended) witness: a failed open still resolves with the store
unchanged, while an invalid restore, a duplicate add and an absent-key
update each surface their error. -/
theorem error_propagation_amended_witness :
    (initDBRun true preState).1 = InitOutcome.resolved ∧
    restoreDatabase noTimestampSnap = Except.error DBError.invalidBackupFormat ∧
    addDoc [⟨"1", "x"⟩] ⟨"1", "z"⟩ = Except.error DBError.duplicateKey ∧
    updateDoc [] "k" "v" = Except.error DBError.notFound :=
  ⟨error_propagation_amended.1 true preState,
   error_propagation_amended.2.2.1 noTimestampSnap (Or.inl (by decide)),
   error_propagation_amended.2.2.2.1 [⟨"1", "x"⟩] ⟨"1", "z"⟩ (by decide),
   error_propagation_amended.2.2.2.2 [] "k" "v" (by decide)⟩

theorem foldl_max_init_le (l : List Nat) : ∀ a : Nat, a ≤ l.foldl max a := by
  induction l with
  | nil => intro a; exact Nat.le_refl a
  | cons b l ih =>
    intro a
    exact Nat.le_trans (Nat.le_max_left a b) (ih (max a b))

theorem foldl_max_mem_le {l : List Nat} {x : Nat} (hx : x ∈ l) :
    ∀ a : Nat, x ≤ l.foldl max a := by
  induction l with
  | nil => cases hx
  | cons b l ih =>
    intro a
    rw [List.foldl_cons]
    rcases List.mem_cons.mp hx with h | h
    · subst h
      exact Nat.le_trans (Nat.le_max_right a x) (foldl_max_init_le l (max a x))
    · exact ih h (max a b)

theorem openMigrate_no_pending {steps : List Nat} {w : Nat}
    (h : steps.filter (fun v => w < v) = []) : openMigrate steps w = (w, []) := by
  simp only [openMigrate, h, List.foldl_nil]

/-- C8: opening the store already at version 3 with the identical ordered
migration list (1, 2, 3) applies zero steps and leaves the persisted
version at 3; for any migration list and prior version, the persisted
version never decreases at open, a second open after any open applies
zero further steps (so every step runs at most once across a sequence of
opens), and the steps an open of this repository applies run in ascending
version order. -/
theorem migration_engine_properties :
    openMigrate migrationList 3 = (3, []) ∧
    (∀ (steps : List Nat) (v0 : Nat), v0 ≤ (openMigrate steps v0).1) ∧
    (∀ (steps : List Nat) (v0 : Nat),
        openMigrate steps (openMigrate steps v0).1 =
          ((openMigrate steps v0).1, [])) ∧
    (∀ v0 : Nat, List.Sorted (· < ·) (openMigrate migrationList v0).2) := by
  refine ⟨by decide, ?_, ?_, ?_⟩
  · intro steps v0
    exact foldl_max_init_le _ v0
  · intro steps v0
    have hempty : steps.filter (fun v => (openMigrate steps v0).1 < v) = [] := by
      rw [List.filter_eq_nil_iff]
      intro v hv
      simp only [decide_eq_true_eq, Nat.not_lt]
      by_cases h0 : v0 < v
      · have hmem : v ∈ steps.filter (fun u => v0 < u) :=
          List.mem_filter.mpr ⟨hv, by simpa using h0⟩
        exact foldl_max_mem_le hmem v0
      · exact Nat.le_trans (Nat.le_of_not_lt h0) (foldl_max_init_le _ v0)
    exact openMigrate_no_pending hempty
  · intro v0
    show List.Sorted (· < ·) (migrationList.filter (fun v => decide (v0 < v)))
    exact List.Sorted.filter _ (by decide)

theorem stepWrite_cb_fst {α : Type} [DecidableEq α] {sub : LiveSub α}
    {st : DBState} {w : WriteOp} {i : Nat} {c : Nat × α}
    (h : (stepWrite sub st w i).2.2 = some c) : c.1 = i := by
  simp only [stepWrite] at h
  split at h
  · split at h
    · simp at h
    · rw [Option.some.injEq] at h
      rw [← h]
  · simp at h

theorem runWrites_indices_ge {α : Type} [DecidableEq α] :
    ∀ (ws : List WriteOp) (sub : LiveSub α) (st : DBState) (i : Nat)
      (x : Nat × α), x ∈ (runWrites sub st i ws).2.2 → i ≤ x.1 := by
  intro ws
  induction ws with
  | nil => intro sub st i x hx; simp [runWrites] at hx
  | cons w ws ih =>
    intro sub st i x hx
    simp only [runWrites, List.mem_append] at hx
    rcases hx with hx | hx
    · cases hcb : (stepWrite sub st w i).2.2 with
      | none => rw [hcb] at hx; simp at hx
      | some c =>
        rw [hcb] at hx
        simp at hx
        rw [hx, stepWrite_cb_fst hcb]
    · exact Nat.le_trans (Nat.le_succ i) (ih _ _ (i + 1) x hx)

theorem runWrites_sorted {α : Type} [DecidableEq α] :
    ∀ (ws : List WriteOp) (sub : LiveSub α) (st : DBState) (i : Nat),
      List.Sorted (· < ·) (((runWrites sub st i ws).2.2).map Prod.fst) := by
  intro ws
  induction ws with
  | nil => intro sub st i; simp [runWrites]
  | cons w ws ih =>
    intro sub st i
    simp only [runWrites, List.map_append]
    cases hcb : (stepWrite sub st w i).2.2 with
    | none => simpa using ih _ _ (i + 1)
    | some c =>
      simp only [Option.toList_some, List.map_cons, List.map_nil,
        List.singleton_append, List.sorted_cons]
      constructor
      · intro b hb
        rw [List.mem_map] at hb
        obtain ⟨x, hx, hbx⟩ := hb
        have hge := runWrites_indices_ge ws _ _ (i + 1) x hx
        have hc := stepWrite_cb_fst hcb
        omega
      · exact ih _ _ (i + 1)

/-- C9: with a live subscription on the employees collection, committing
one add of a new document fires the change callback exactly once, tagged
with that write and delivering a result that includes the new document;
and for every subscription and every FIFO sequence of committed writes,
the delivered callbacks carry strictly increasing write indices, so a
callback for an earlier write is never delivered after a callback for a
later write. -/
theorem live_query_single_add_and_order :
    (∀ (st : DBState) (d : Doc),
      (runWrites (empSub st) st 0 [addWrite d]).2.2
        = [(0, st.employees ++ [d])] ∧
      d ∈ st.employees ++ [d]) ∧
    (∀ (α : Type) (inst : DecidableEq α) (sub : LiveSub α) (st : DBState)
        (i : Nat) (ws : List WriteOp),
      List.Sorted (· < ·)
        (((@runWrites α inst sub st i ws).2.2).map Prod.fst)) := by
  constructor
  · intro st d
    constructor
    · have hne : st.employees ++ [d] ≠ st.employees := by
        intro h
        have := congrArg List.length h
        simp at this
      simp [runWrites, stepWrite, empSub, addWrite, hne]
    · simp
  · intro α inst sub st i ws
    exact @runWrites_sorted α inst ws sub st i

/-- C10: the snapshot produced by `backupDatabase` always carries
`schemaVersion = 3`, whatever schema version the open store actually
persists, and `restoreDatabase` is insensitive to the `schemaVersion`
field of the snapshot it is given. -/
theorem backup_fixed_version_restore_ignores_it :
    (∀ (v v2 : Nat) (st : DBState) (now : String),
      (backupDatabase v st now).schemaVersion = some 3 ∧
      backupDatabase v st now = backupDatabase v2 st now) ∧
    (∀ (s : Snapshot) (sv : Option Int),
      restoreDatabase { s with schemaVersion := sv } = restoreDatabase s) :=
  ⟨fun _ _ _ _ => ⟨rfl, rfl⟩, fun _ _ => rfl⟩

end Signia
